import Mathlib

/-!
Verification of the audio engine of catfl4k.py (Cat's Studio 26).

The engine is shallowly embedded: Python floats become real numbers, the
tempo arithmetic (done on exact small numbers in the source) is carried in
the rationals so that it stays executable, machine-level `int()` truncation
on nonnegative quantities becomes an explicit floor-to-Nat, and NumPy
arrays become Lean lists.  Pure synthesis noise (np.random.normal) is
passed in as an explicit list parameter.
-/

namespace Catfl4k

/-- Source: SAMPLE_RATE = 44100. -/
def SAMPLE_RATE : ℕ := 44100

/-- Source: BLOCK_SIZE = 512. -/
def BLOCK_SIZE : ℕ := 512

/-- Source: MAX_VOICES = 64 (declared at line 55; never referenced again). -/
def MAX_VOICES : ℕ := 64

/-- Python int() applied to a nonnegative rational: truncation toward zero,
which on nonnegative values is the floor. -/
def pyInt (q : ℚ) : ℕ := (Int.floor q).toNat

/-- The btype argument of the FFT filter: the source compares the string
against the literal low and treats everything else as high. -/
inductive FilterType where
  | low
  | high
deriving DecidableEq

/-- np.fft.rfftfreq n (d = 1/sr): the k-th real-FFT bin frequency k*sr/n,
for k = 0 .. n/2. -/
noncomputable def rfftfreq (n : ℕ) (sr : ℝ) : List ℝ :=
  (List.range (n / 2 + 1)).map (fun k : ℕ => (k : ℝ) * sr / (n : ℝ))

/-- np.fft.rfft of a real list: bin k is the sum of data[j]*exp(-2*pi*I*j*k/n). -/
noncomputable def rfft (data : List ℝ) : List Complex :=
  (List.range (data.length / 2 + 1)).map (fun k : ℕ =>
    ∑ j in Finset.range data.length,
      (data.getD j 0 : Complex) *
        Complex.exp (-2 * Real.pi * Complex.I * j * (k : ℂ) / data.length))

/-- np.fft.irfft of a half-spectrum, with explicit output length n: the
inverse real FFT, where interior bins count twice (conjugate symmetry). -/
noncomputable def irfft (spectrum : List Complex) (n : ℕ) : List ℝ :=
  (List.range n).map (fun m : ℕ =>
    (∑ k in Finset.range spectrum.length,
      (if k = 0 ∨ 2 * k = n then (1 : ℝ) else 2) *
        (spectrum.getD k 0 * Complex.exp (2 * Real.pi * Complex.I * k * (m : ℂ) / n)).re) / n)

/-- The per-bin gain list of the Butterworth-style filter; in high-pass mode
the zero-frequency bin is overwritten with 0 (gain[0] = 0.0 in the source). -/
noncomputable def butterGains (cutoff sr : ℝ) (order : ℕ) (btype : FilterType)
    (n : ℕ) : List ℝ :=
  let freqs := rfftfreq n sr
  let epsilon : ℝ := 1e-10
  match btype with
  | FilterType.low =>
      freqs.map (fun f => 1 / Real.sqrt (1 + (f / (cutoff + epsilon)) ^ (2 * order)))
  | FilterType.high =>
      (freqs.map (fun f => 1 / Real.sqrt (1 + (cutoff / (f + epsilon)) ^ (2 * order)))).set 0 0

/-- Source: def _butter_filter(data, cutoff, sr, btype, order): n = 0 returns
the data unchanged; otherwise transform, scale each bin, transform back. -/
noncomputable def butterFilter (data : List ℝ) (cutoff sr : ℝ)
    (btype : FilterType) (order : ℕ) : List ℝ :=
  if data.length = 0 then data
  else
    irfft (List.zipWith (fun X g => X * (g : Complex)) (rfft data)
      (butterGains cutoff sr order btype data.length)) data.length

/-- np.max(np.abs(sig)) folded over a list, 0 on the empty list. -/
noncomputable def peakAbs (xs : List ℝ) : ℝ :=
  xs.foldr (fun x m => max |x| m) 0

/-- The normalization step shared by all synthesizers: divide by the peak
when it is positive, otherwise return the signal unchanged. -/
noncomputable def normalize (sig : List ℝ) : List ℝ :=
  if 0 < peakAbs sig then sig.map (fun x => x / peakAbs sig) else sig

/-- Sample index j as a time in seconds (t = np.arange(n) / SAMPLE_RATE). -/
noncomputable def tIdx (j : ℕ) : ℝ := (j : ℝ) / (SAMPLE_RATE : ℝ)

/-- Kick, before normalization: sine with exponentially decaying
instantaneous frequency (np.cumsum of the frequency envelope) under a
300 ms amplitude decay, plus the first 5 ms of the noise scaled by 0.5. -/
noncomputable def kickRaw (duration : ℚ) (noise : List ℝ) : List ℝ :=
  let n := pyInt ((SAMPLE_RATE : ℚ) * duration)
  let clickLen := pyInt ((5 / 1000 : ℚ) * (SAMPLE_RATE : ℚ))
  let freq : ℕ → ℝ := fun j => 150 * Real.exp (-(tIdx j) / 0.07) + 50
  let phase : ℕ → ℝ := fun j =>
    2 * Real.pi * (∑ i in Finset.range (j + 1), freq i) / (SAMPLE_RATE : ℝ)
  (List.range n).map (fun j =>
    Real.sin (phase j) * Real.exp (-(tIdx j) / 0.3) +
      (if j < clickLen then noise.getD j 0 * 0.5 else 0))

/-- Source: synth_kick. -/
noncomputable def synthKick (duration : ℚ) (noise : List ℝ) : List ℝ :=
  normalize (kickRaw duration noise)

/-- Snare, before normalization: 0.4 of a decaying 180 Hz tone plus 0.6 of
high-pass filtered, exponentially decaying noise. -/
noncomputable def snareRaw (duration : ℚ) (noise : List ℝ) : List ℝ :=
  let n := pyInt ((SAMPLE_RATE : ℚ) * duration)
  let tone : ℕ → ℝ := fun j =>
    Real.sin (2 * Real.pi * 180 * tIdx j) * Real.exp (-(tIdx j) / 0.05)
  let noiseEnv := (List.range n).map (fun j => noise.getD j 0 * Real.exp (-(tIdx j) / 0.12))
  let filtered := butterFilter noiseEnv 1000 (SAMPLE_RATE : ℝ) FilterType.high 4
  (List.range n).map (fun j => 0.4 * tone j + 0.6 * filtered.getD j 0)

/-- Source: synth_snare. -/
noncomputable def synthSnare (duration : ℚ) (noise : List ℝ) : List ℝ :=
  normalize (snareRaw duration noise)

/-- Hat, before normalization: noise plus three square-wave partials,
high-pass filtered at 7 kHz, under a short (closed) or long (open) decay. -/
noncomputable def hatRaw (duration : ℚ) (openHat : Bool) (noise : List ℝ) : List ℝ :=
  let n := pyInt ((SAMPLE_RATE : ℚ) * duration)
  let body : ℕ → ℝ := fun j =>
    noise.getD j 0 +
      Real.sign (Real.sin (2 * Real.pi * 300 * tIdx j)) * 0.2 +
      Real.sign (Real.sin (2 * Real.pi * 540 * tIdx j)) * 0.2 +
      Real.sign (Real.sin (2 * Real.pi * 800 * tIdx j)) * 0.2
  let filtered := butterFilter ((List.range n).map body) 7000 (SAMPLE_RATE : ℝ)
    FilterType.high 4
  let decay : ℝ := if openHat then 0.3 else 0.04
  (List.range n).map (fun j => filtered.getD j 0 * Real.exp (-(tIdx j) / decay))

/-- Source: synth_hat. -/
noncomputable def synthHat (duration : ℚ) (openHat : Bool) (noise : List ℝ) : List ℝ :=
  normalize (hatRaw duration openHat noise)

/-- np.max of a plain (not absolute-value) list, 0 on the empty list; the
clap envelope is normalized with np.max(env), not np.max(np.abs(env)). -/
noncomputable def maxFold (xs : List ℝ) : ℝ :=
  xs.foldr (fun x m => max x m) 0

/-- The clap burst envelope: four exponential bursts 12 ms apart, each added
from its (truncated) start index on, then divided by its maximum if positive. -/
noncomputable def clapEnv (n : ℕ) : List ℝ :=
  let st : ℕ → ℕ := fun i => pyInt ((i : ℚ) * (12 / 1000 : ℚ) * (SAMPLE_RATE : ℚ))
  let env := (List.range n).map (fun j =>
    ∑ i in Finset.range 4,
      if st i < n ∧ st i ≤ j then
        Real.exp (-((j - st i : ℕ) : ℝ) / ((SAMPLE_RATE : ℝ) * 0.005))
      else 0)
  if 0 < maxFold env then env.map (fun x => x / maxFold env) else env

/-- Clap, before normalization: high-pass filtered noise shaped by the burst
envelope under a 200 ms decay. -/
noncomputable def clapRaw (duration : ℚ) (noise : List ℝ) : List ℝ :=
  let n := pyInt ((SAMPLE_RATE : ℚ) * duration)
  let filtered := butterFilter ((List.range n).map (fun j => noise.getD j 0)) 1200
    (SAMPLE_RATE : ℝ) FilterType.high 4
  (List.range n).map (fun j =>
    filtered.getD j 0 * (clapEnv n).getD j 0 * Real.exp (-(tIdx j) / 0.2))

/-- Source: synth_clap. -/
noncomputable def synthClap (duration : ℚ) (noise : List ℝ) : List ℝ :=
  normalize (clapRaw duration noise)

/-- One playing instance of a buffer: class Voice (data, pos, vol, pan). -/
structure Voice where
  data : List ℝ
  pos : ℕ
  vol : ℝ
  pan : ℝ

/-- One channel of the rack: its buffer, 16-step grid, volume and pan.  The
name and color fields are UI metadata with no audio effect and are omitted. -/
structure Channel where
  data : List ℝ
  steps : List Bool
  vol : ℝ
  pan : ℝ

/-- Voice(ch.data, ch.vol, ch.pan): the gain and pan are copied at trigger
time; only the buffer is shared. -/
def Voice.ofChannel (ch : Channel) : Voice :=
  { data := ch.data, pos := 0, vol := ch.vol, pan := ch.pan }

/-- The mutable fields of AudioEngine that the render path touches.  The
sounddevice stream handle is I/O and not modeled. -/
structure EngineState where
  bpm : ℚ
  playing : Bool
  songMode : Bool
  recording : Bool
  samplePos : ℕ
  channels : List Channel
  voices : List Voice
  meterLevels : List ℝ
  currentStep : ℕ

/-- AudioEngine.__init__: bpm 140, stopped, empty kit, ten zero meters. -/
def initState : EngineState :=
  { bpm := 140, playing := false, songMode := false, recording := false,
    samplePos := 0, channels := [], voices := [],
    meterLevels := List.replicate 10 0, currentStep := 0 }

/-- sps = (60 / self.bpm / 4) * SAMPLE_RATE, exact in the rationals. -/
def spsQ (bpm : ℚ) : ℚ := 60 / bpm / 4 * (SAMPLE_RATE : ℚ)

/-- trigger_time = int(s * sps): the sample position of step boundary s. -/
def triggerTimeAt (bpm : ℚ) (s : ℕ) : ℕ := pyInt ((s : ℚ) * spsQ bpm)

/-- The candidate range of step numbers range(start_step, end_step + 1) for
a block of the given start and length. -/
def stepRange (bpm : ℚ) (start frames : ℕ) : List ℕ :=
  let startStep := pyInt ((start : ℚ) / spsQ bpm)
  let endStep := pyInt (((start + frames : ℕ) : ℚ) / spsQ bpm)
  (List.range (endStep + 1 - startStep)).map (fun k => k + startStep)

/-- The step numbers whose boundary actually lands inside [start, start+frames):
the guard start <= trigger_time < end of the sequencer loop. -/
def firedSteps (bpm : ℚ) (start frames : ℕ) : List ℕ :=
  (stepRange bpm start frames).filter (fun s =>
    decide (start ≤ triggerTimeAt bpm s ∧ triggerTimeAt bpm s < start + frames))

/-- The voices appended for one step index: one per channel whose grid is
set there, capturing that channel's current gain and pan. -/
def voicesForStep (cs : List Channel) (stepIdx : ℕ) : List Voice :=
  (cs.filter (fun ch => ch.steps.getD stepIdx false)).map Voice.ofChannel

/-- All voices appended during one block, in sequencer-loop order. -/
def newVoices (cs : List Channel) (bpm : ℚ) (start frames : ℕ) : List Voice :=
  (firedSteps bpm start frames).flatMap (fun s => voicesForStep cs (s % 16))

/-- The sequencer half of the callback: when playing, fire the due steps,
record the last fired step index mod 16, and advance sample_pos by frames. -/
def triggerPhase (σ : EngineState) (frames : ℕ) : EngineState :=
  if σ.playing then
    { σ with
      voices := σ.voices ++ newVoices σ.channels σ.bpm σ.samplePos frames,
      currentStep :=
        (firedSteps σ.bpm σ.samplePos frames).foldl (fun _ s => s % 16) σ.currentStep,
      samplePos := σ.samplePos + frames }
  else σ

/-- count = min(frames, remaining): how many samples of this voice land in
the block. -/
def voiceCount (v : Voice) (frames : ℕ) : ℕ :=
  min frames (v.data.length - v.pos)

/-- left gain: np.cos(pan * pi / 2). -/
noncomputable def lGain (pan : ℝ) : ℝ := Real.cos (pan * Real.pi / 2)

/-- right gain: np.sin(pan * pi / 2). -/
noncomputable def rGain (pan : ℝ) : ℝ := Real.sin (pan * Real.pi / 2)

/-- The (left, right) contribution of one voice at intra-block index j.
The source writes the chunk at out[:count], i.e. always from offset 0. -/
noncomputable def contrib (v : Voice) (frames j : ℕ) : ℝ × ℝ :=
  if j < voiceCount v frames then
    (v.data.getD (v.pos + j) 0 * v.vol * lGain v.pan,
     v.data.getD (v.pos + j) 0 * v.vol * rGain v.pan)
  else (0, 0)

/-- The summed stereo block of all voices before clipping. -/
noncomputable def outBlock (vs : List Voice) (frames : ℕ) : List (ℝ × ℝ) :=
  (List.range frames).map (fun j =>
    vs.foldl (fun acc v => (acc.1 + (contrib v frames j).1, acc.2 + (contrib v frames j).2))
      (0, 0))

/-- Voice survival: voices with nothing remaining are skipped (dropped);
the rest advance by count and are kept only while the cursor is short of
the buffer end. -/
def surviving (vs : List Voice) (frames : ℕ) : List Voice :=
  ((vs.filter (fun v => decide (v.pos < v.data.length))).map
      (fun v => { v with pos := v.pos + voiceCount v frames })).filter
    (fun v => decide (v.pos < v.data.length))

/-- The chunk a voice writes this block, already scaled by its gain. -/
noncomputable def voiceChunk (v : Voice) (frames : ℕ) : List ℝ :=
  ((v.data.drop v.pos).take (voiceCount v frames)).map (fun x => x * v.vol)

/-- peak = np.max(np.abs(chunk)) of one rendered voice. -/
noncomputable def chunkPeak (v : Voice) (frames : ℕ) : ℝ :=
  peakAbs (voiceChunk v frames)

/-- The voices the render loop actually mixes (remaining > 0). -/
def renderedVoices (vs : List Voice) : List Voice :=
  vs.filter (fun v => decide (v.pos < v.data.length))

/-- mix_energy[i] for channel i: the running max of the chunk peaks of every
rendered voice whose buffer is the channel's buffer (the source compares
NumPy array identity; the embedding compares the buffers themselves). -/
noncomputable def chanEnergy (cs : List Channel) (vs : List Voice) (frames i : ℕ) : ℝ :=
  ((renderedVoices vs).filter
      (fun v => decide ((cs.getD i { data := [], steps := [], vol := 0, pan := 0 }).data
        = v.data))).foldr
    (fun v m => max (chunkPeak v frames) m) 0

/-- np.max(np.abs(out)) over both interleaved stereo lanes, 0 when empty. -/
noncomputable def peakPairs (xs : List (ℝ × ℝ)) : ℝ :=
  xs.foldr (fun p m => max (max |p.1| |p.2|) m) 0

/-- mix_energy[-1] = the peak of the summed block before clipping. -/
noncomputable def masterPeak (vs : List Voice) (frames : ℕ) : ℝ :=
  peakPairs (outBlock vs frames)

/-- The block energy written into meter slot i: the master peak in the last
slot, the channel energy elsewhere. -/
noncomputable def blockEnergy (cs : List Channel) (vs : List Voice)
    (frames nMeters i : ℕ) : ℝ :=
  if i + 1 = nMeters then masterPeak vs frames else chanEnergy cs vs frames i

/-- meter_levels[i] = max(mix_energy[i], meter_levels[i] * 0.9). -/
noncomputable def newMeters (cs : List Channel) (vs : List Voice) (old : List ℝ)
    (frames : ℕ) : List ℝ :=
  (List.range old.length).map (fun i =>
    max (blockEnergy cs vs frames old.length i) (old.getD i 0 * 0.9))

/-- np.clip(x, -1.0, 1.0). -/
noncomputable def clip (x : ℝ) : ℝ := max (-1) (min 1 x)

/-- AudioEngine.callback for one block of the given length: sequencer phase,
then mixing, voice pruning, metering, and soft clipping of the emitted data. -/
noncomputable def callback (σ : EngineState) (frames : ℕ) :
    EngineState × List (ℝ × ℝ) :=
  let σ₁ := triggerPhase σ frames
  ({ σ₁ with
      voices := surviving σ₁.voices frames,
      meterLevels := newMeters σ₁.channels σ₁.voices σ₁.meterLevels frames },
   (outBlock σ₁.voices frames).map (fun p => (clip p.1, clip p.2)))

/-- AudioEngine.play_stop: stopping resets position, step and voices;
starting only flips the flag (the state was already reset by stop). -/
def playStop (σ : EngineState) : EngineState :=
  if σ.playing then
    { σ with playing := false, samplePos := 0, currentStep := 0, voices := [] }
  else { σ with playing := true }

/-- CatStudio26.update_bpm: int(entry) stored verbatim on success, state kept
unchanged when int() raises.  The parsed-or-failed entry is the Option. -/
def updateBpm (σ : EngineState) (entry : Option ℤ) : EngineState :=
  match entry with
  | some n => { σ with bpm := (n : ℚ) }
  | none => σ

/-- sps = int((60 / self.bpm / 4) * SAMPLE_RATE) of the exporter. -/
def spsInt (bpm : ℚ) : ℕ := pyInt (spsQ bpm)

/-- total_len = sps * 16 * 4 of the exporter. -/
def totalLen (bpm : ℚ) : ℕ := spsInt bpm * 16 * 4

/-- One placement of the exporter: add the channel's buffer, scaled by gain
and the two pan gains, at time_idx — but only when the whole buffer fits
strictly inside total_len; otherwise the output is left untouched. -/
noncomputable def addBuf (out : List (ℝ × ℝ)) (ch : Channel) (timeIdx totalL : ℕ) :
    List (ℝ × ℝ) :=
  if timeIdx + ch.data.length < totalL then
    (List.range out.length).map (fun j =>
      if timeIdx ≤ j ∧ j < timeIdx + ch.data.length then
        ((out.getD j (0, 0)).1 + ch.data.getD (j - timeIdx) 0 * ch.vol * lGain ch.pan,
         (out.getD j (0, 0)).2 + ch.data.getD (j - timeIdx) 0 * ch.vol * rGain ch.pan)
      else out.getD j (0, 0))
  else out

/-- AudioEngine.export_wav before normalization: 4 bars of 16 steps, each
active step placed at (bar * 16 + s) * sps. -/
noncomputable def exportRaw (cs : List Channel) (bpm : ℚ) : List (ℝ × ℝ) :=
  (List.range 4).foldl (fun acc bar =>
    (List.range 16).foldl (fun acc2 s =>
      cs.foldl (fun acc3 ch =>
        if ch.steps.getD s false then
          addBuf acc3 ch ((bar * 16 + s) * spsInt bpm) (totalLen bpm)
        else acc3) acc2) acc)
    (List.replicate (totalLen bpm) (0, 0))

/-- The exported stereo buffer: the raw placement divided by its peak when
that peak is positive (m = np.max(np.abs(out)); if m > 0: out /= m). -/
noncomputable def exportBuffer (cs : List Channel) (bpm : ℚ) : List (ℝ × ℝ) :=
  if 0 < peakPairs (exportRaw cs bpm) then
    (exportRaw cs bpm).map (fun p =>
      (p.1 / peakPairs (exportRaw cs bpm), p.2 / peakPairs (exportRaw cs bpm)))
  else exportRaw cs bpm

/-- A one-channel kit whose buffer is two full-scale samples, every step
active, full gain, hard-left pan: used to exhibit the missing polyphony cap. -/
def chCap : Channel :=
  { data := [1, 1], steps := List.replicate 16 true, vol := 1, pan := 0 }

/-- 70 identical channels all triggering on step 0 of a fresh run at 140 BPM:
one block then fires 70 simultaneous voices. -/
def stateCap : EngineState :=
  { bpm := 140, playing := true, songMode := false, recording := false,
    samplePos := 0, channels := List.replicate 70 chCap, voices := [],
    meterLevels := List.replicate 71 0, currentStep := 0 }

/-- A one-sample full-scale channel used to locate where a mid-block trigger
is written. -/
def chOff : Channel :=
  { data := [1], steps := List.replicate 16 true, vol := 1, pan := 0 }

/-- At 220500 BPM a step lasts exactly 3 samples; the block [2, 6) contains
the single step boundary at sample 3, i.e. at intra-block offset 1. -/
def stateOff : EngineState :=
  { bpm := 220500, playing := true, songMode := false, recording := false,
    samplePos := 2, channels := [chOff], voices := [],
    meterLevels := List.replicate 2 0, currentStep := 0 }

/-- Two identical full-scale channels and the two voices they triggered one
sample ago: their sum reaches 2.0 before the clip stage. -/
def chLoud : Channel :=
  { data := [1, 1], steps := List.replicate 16 true, vol := 1, pan := 0 }

/-- A mid-pattern state (no step boundary in the next one-sample block) with
two simultaneously sounding full-scale voices. -/
def stateLoud : EngineState :=
  { bpm := 140, playing := true, songMode := false, recording := false,
    samplePos := 1, channels := [chLoud, chLoud],
    voices := [{ data := [1, 1], pos := 1, vol := 1, pan := 0 },
               { data := [1, 1], pos := 1, vol := 1, pan := 0 }],
    meterLevels := [0, 0, 0], currentStep := 0 }

/-- A channel active only on step 15 with a one-sample buffer: in the last
bar of the export its placement would need index 63 = (3*16+15)*sps. -/
def chTail : Channel :=
  { data := [1], steps := List.replicate 15 false ++ [true], vol := 1, pan := 0 }

end Catfl4k

namespace Catfl4k

/-- Python int() of a rational sitting in [n, n+1) is n. -/
lemma pyInt_of_bounds (q : ℚ) (n : ℕ) (h0 : (n : ℚ) ≤ q) (h1 : q < (n : ℚ) + 1) :
    pyInt q = n := by
  have h : Int.floor q = (n : ℤ) := by
    rw [Int.floor_eq_iff]
    refine ⟨by exact_mod_cast h0, by push_cast; exact h1⟩
  simp [pyInt, h]

lemma pyInt_zero : pyInt 0 = 0 := by
  simp [pyInt]

/-- Unfolding of the sequencer loop once the two floor divisions are known. -/
lemma firedSteps_expand (bpm : ℚ) (start frames a b : ℕ)
    (ha : pyInt ((start : ℚ) / spsQ bpm) = a)
    (hb : pyInt (((start + frames : ℕ) : ℚ) / spsQ bpm) = b) :
    firedSteps bpm start frames =
      ((List.range (b + 1 - a)).map (fun k => k + a)).filter
        (fun s => decide (start ≤ triggerTimeAt bpm s ∧ triggerTimeAt bpm s < start + frames)) := by
  unfold firedSteps stepRange
  rw [ha, hb]

/-- From a cold start, a block shorter than one step fires exactly step 0. -/
lemma firedSteps_zero_start (bpm : ℚ) (frames : ℕ) (hf : 0 < frames)
    (hpos : 0 < spsQ bpm) (hsps : (frames : ℚ) < spsQ bpm) :
    firedSteps bpm 0 frames = [0] := by
  have htrig : triggerTimeAt bpm 0 = 0 := by
    simp [triggerTimeAt, pyInt]
  rw [firedSteps_expand bpm 0 frames 0 0]
  · simp [htrig, hf, List.range_succ, List.filter]
  · simp [pyInt_zero]
  · apply pyInt_of_bounds
    · positivity
    · rw [Nat.zero_add]
      have h1 : ((0 : ℕ) : ℚ) + 1 = 1 := by norm_num
      rw [h1, div_lt_one hpos]
      exact hsps

lemma spsQ_140 : spsQ 140 = 4725 := by
  norm_num [spsQ, SAMPLE_RATE]

lemma fired_cap : firedSteps 140 0 1 = [0] := by
  apply firedSteps_zero_start <;> norm_num [spsQ_140]

lemma spsQ_220500 : spsQ 220500 = 3 := by
  norm_num [spsQ, SAMPLE_RATE]

lemma triggerTimeAt_off : triggerTimeAt 220500 1 = 3 := by
  unfold triggerTimeAt
  rw [spsQ_220500]
  apply pyInt_of_bounds <;> norm_num

lemma fired_off : firedSteps 220500 2 4 = [1] := by
  have t0 : triggerTimeAt 220500 0 = 0 := by
    simp [triggerTimeAt, pyInt]
  have t1 := triggerTimeAt_off
  have t2 : triggerTimeAt 220500 2 = 6 := by
    unfold triggerTimeAt
    rw [spsQ_220500]
    apply pyInt_of_bounds <;> norm_num
  rw [firedSteps_expand 220500 2 4 0 2]
  · norm_num [List.range_succ, t0, t1, t2, List.filter_append, List.filter]
  · rw [spsQ_220500]; apply pyInt_of_bounds <;> norm_num
  · rw [spsQ_220500]; apply pyInt_of_bounds <;> norm_num

lemma fired_loud : firedSteps 140 1 1 = [] := by
  have t0 : triggerTimeAt 140 0 = 0 := by
    simp [triggerTimeAt, pyInt]
  rw [firedSteps_expand 140 1 1 0 0]
  · simp [t0]
  · rw [spsQ_140]; apply pyInt_of_bounds <;> norm_num
  · rw [spsQ_140]; apply pyInt_of_bounds <;> norm_num

/-- C1: the polyphony cap is never enforced.  MAX_VOICES = 64 is declared
but unused: 70 simultaneous triggers in one block (70 channels all active on
step 0 of a fresh run, buffers outliving the block) leave all 70 voices
active after the callback, exceeding the cap — no evict-oldest or
reject-newest policy exists in the render path. -/
theorem voice_count_exceeds_cap :
    ((callback stateCap 1).1.voices).length = 70 ∧
    MAX_VOICES < ((callback stateCap 1).1.voices).length := by
  have h : ((callback stateCap 1).1.voices).length = 70 := by
    simp [callback, triggerPhase, stateCap, newVoices, fired_cap, voicesForStep,
      surviving, voiceCount, chCap, Voice.ofChannel,
      List.filter_replicate, List.map_replicate]
  refine ⟨h, ?_⟩
  rw [h]
  norm_num [MAX_VOICES]

/-- C2: the intra-block trigger offset is computed but never used.  In the
block [2, 6) at 220500 BPM the only step boundary is global sample 3, at
intra-block offset 1; yet the voice's first sample is written at output
offset 0 (out[0] = 1) and offset 1 is silent (out[1] = 0), contradicting the
claim that the first rendered sample lands at offset X − S. -/
theorem trigger_rendered_at_block_start :
    firedSteps stateOff.bpm stateOff.samplePos 4 = [1] ∧
    triggerTimeAt stateOff.bpm 1 - stateOff.samplePos = 1 ∧
    ((callback stateOff 4).2.getD 0 (0, 0)).1 = 1 ∧
    ((callback stateOff 4).2.getD 1 (0, 0)).1 = 0 := by
  refine ⟨by simp [stateOff, fired_off], by simp [stateOff, triggerTimeAt_off], ?_, ?_⟩ <;>
    simp [callback, triggerPhase, stateOff, newVoices, fired_off, voicesForStep,
      chOff, Voice.ofChannel, outBlock, contrib, voiceCount, lGain, rGain, clip,
      List.range_succ, Real.cos_zero, Real.sin_zero]

/-- C3 counterexample: a submitted tempo of 1000 BPM is stored verbatim,
not clamped into 20–400. -/
theorem tempo_stored_out_of_range :
    (updateBpm initState (some 1000)).bpm = 1000 ∧
    ¬ (updateBpm initState (some 1000)).bpm ≤ 400 := by
  constructor <;> norm_num [updateBpm, initState]

/-- C3 (amended): the tempo command performs no clamping at all — any
parsed integer (in range or not) is stored exactly, and unparseable input
leaves the whole state unchanged. -/
theorem tempo_stored_unclamped (σ : EngineState) (n : ℤ) :
    (updateBpm σ (some n)).bpm = (n : ℚ) ∧ updateBpm σ none = σ :=
  ⟨rfl, rfl⟩

/-- C4 counterexample: the master meter is taken from the summed block
before clipping, so two overlapping full-scale voices drive it to 2,
outside [0, 1], even though every buffer is normalized, every gain is in
[0, 1] and every previous meter level is in [0, 1]. -/
theorem master_meter_exceeds_one :
    ((callback stateLoud 1).1.meterLevels).getD 2 0 = 2 ∧
    ¬ ((callback stateLoud 1).1.meterLevels).getD 2 0 ≤ 1 := by
  have h : ((callback stateLoud 1).1.meterLevels).getD 2 0 = 2 := by
    simp [callback, triggerPhase, stateLoud, newVoices, fired_loud, newMeters,
      blockEnergy, masterPeak, peakPairs, outBlock, contrib, voiceCount,
      chanEnergy, lGain, rGain, List.range_succ, Real.cos_zero, Real.sin_zero]
    norm_num
  refine ⟨h, ?_⟩
  rw [h]
  norm_num

/-- C6: stopping and then starting resets elapsed samples and the step index
to 0 and clears the voice list, and — at any clamped-range tempo, where one
step outlasts a 512-frame block — the first block after the restart fires
exactly step 0. -/
theorem stop_start_resets (σ : EngineState) (hp : σ.playing = true)
    (h1 : 20 ≤ σ.bpm) (h2 : σ.bpm ≤ 400) :
    (playStop (playStop σ)).playing = true ∧
    (playStop (playStop σ)).samplePos = 0 ∧
    (playStop (playStop σ)).currentStep = 0 ∧
    (playStop (playStop σ)).voices = [] ∧
    firedSteps (playStop (playStop σ)).bpm (playStop (playStop σ)).samplePos
      BLOCK_SIZE = [0] := by
  have hb : (0 : ℚ) < σ.bpm := lt_of_lt_of_le (by norm_num) h1
  have hd : playStop (playStop σ) =
      { σ with playing := true, samplePos := 0, currentStep := 0, voices := [] } := by
    simp [playStop, hp]
  have hsps : 0 < spsQ σ.bpm := by
    unfold spsQ SAMPLE_RATE
    positivity
  have hform : spsQ σ.bpm = 661500 / σ.bpm := by
    unfold spsQ SAMPLE_RATE
    field_simp
    ring
  have hlt : ((BLOCK_SIZE : ℕ) : ℚ) < spsQ σ.bpm := by
    rw [hform, BLOCK_SIZE]
    rw [lt_div_iff₀ hb]
    have hm : (512 : ℚ) * σ.bpm ≤ 512 * 400 :=
      mul_le_mul_of_nonneg_left h2 (by norm_num)
    push_cast
    linarith
  rw [hd]
  refine ⟨rfl, rfl, rfl, rfl, ?_⟩
  exact firedSteps_zero_start σ.bpm BLOCK_SIZE (by norm_num [BLOCK_SIZE]) hsps hlt

/-- Witness for C6 at a concrete running state (140 BPM). -/
theorem stop_start_resets_witness :
    (playStop (playStop stateCap)).playing = true ∧
    (playStop (playStop stateCap)).samplePos = 0 ∧
    (playStop (playStop stateCap)).currentStep = 0 ∧
    (playStop (playStop stateCap)).voices = [] ∧
    firedSteps (playStop (playStop stateCap)).bpm (playStop (playStop stateCap)).samplePos
      BLOCK_SIZE = [0] :=
  stop_start_resets stateCap rfl (by norm_num [stateCap]) (by norm_num [stateCap])

/-- C7: the samples-per-step value is exactly (60/T/4)·sampleRate, step 0
fires at elapsed sample 0, and the boundary of step 16·K sits within one
sample (the floating/truncation tolerance) of 16·K·samplesPerStep — so
advancing 16·K steps advances elapsed samples by 16·K·samplesPerStep up to
that tolerance. -/
theorem samples_per_step_exact (T : ℚ) (hT : 0 < T) (K : ℕ) :
    spsQ T = 60 / T / 4 * (SAMPLE_RATE : ℚ) ∧
    triggerTimeAt T 0 = 0 ∧
    |((triggerTimeAt T (16 * K) : ℕ) : ℚ) - ((16 * K : ℕ) : ℚ) * spsQ T| < 1 := by
  have hsps : 0 < spsQ T := by
    unfold spsQ SAMPLE_RATE
    positivity
  refine ⟨rfl, by simp [triggerTimeAt, pyInt], ?_⟩
  set q : ℚ := ((16 * K : ℕ) : ℚ) * spsQ T with hq
  have hq0 : 0 ≤ q := mul_nonneg (by positivity) hsps.le
  have hcast : ((triggerTimeAt T (16 * K) : ℕ) : ℚ) = ((Int.floor q : ℤ) : ℚ) := by
    unfold triggerTimeAt pyInt
    rw [← hq]
    have := Int.toNat_of_nonneg (Int.floor_nonneg.mpr hq0)
    exact_mod_cast congrArg (fun z : ℤ => (z : ℚ)) this
  rw [hcast]
  have hle : ((Int.floor q : ℤ) : ℚ) ≤ q := Int.floor_le q
  have hgt : q - 1 < ((Int.floor q : ℤ) : ℚ) := Int.sub_one_lt_floor q
  rw [abs_sub_lt_iff]
  constructor <;> linarith

/-- Witness for C7 at T = 120, K = 1. -/
theorem samples_per_step_exact_witness :
    spsQ 120 = 60 / 120 / 4 * (SAMPLE_RATE : ℚ) ∧
    triggerTimeAt 120 0 = 0 ∧
    |((triggerTimeAt 120 (16 * 1) : ℕ) : ℚ) - ((16 * 1 : ℕ) : ℚ) * spsQ 120| < 1 :=
  samples_per_step_exact 120 (by norm_num) 1

lemma irfft_length (X : List Complex) (n : ℕ) : (irfft X n).length = n := by
  unfold irfft
  rw [List.length_map, List.length_range]

lemma butterFilter_length (data : List ℝ) (cutoff sr : ℝ) (btype : FilterType)
    (order : ℕ) : (butterFilter data cutoff sr btype order).length = data.length := by
  unfold butterFilter
  split
  · rfl
  · exact irfft_length _ _

/-- C9: the spectral shaping filter preserves the input length, maps the
empty input to the empty output, and in high-pass mode the gain list used
for a nonempty input has 0 in its zero-frequency slot. -/
theorem filter_length_empty_dc (data : List ℝ) (cutoff sr : ℝ)
    (btype : FilterType) (order : ℕ) :
    (butterFilter data cutoff sr btype order).length = data.length ∧
    (data = [] → butterFilter data cutoff sr btype order = []) ∧
    (0 < data.length →
      (butterGains cutoff sr order FilterType.high data.length).getD 0 1 = 0) := by
  refine ⟨butterFilter_length data cutoff sr btype order, ?_, ?_⟩
  · rintro rfl
    rfl
  · intro hn
    unfold butterGains rfftfreq
    have hlen : 0 < ((List.range (data.length / 2 + 1)).map
        (fun k : ℕ => (k : ℝ) * sr / (data.length : ℝ))).length := by
      rw [List.length_map, List.length_range]
      omega
    generalize ((List.range (data.length / 2 + 1)).map
      (fun k : ℕ => (k : ℝ) * sr / (data.length : ℝ))) = freqs at hlen
    cases freqs with
    | nil => simp at hlen
    | cons a t => rfl

/-- Witness for C9 on a concrete three-sample input. -/
theorem filter_length_empty_dc_witness :
    (butterFilter [1, 0, 0] 1000 44100 FilterType.high 4).length = ([1, 0, 0] : List ℝ).length ∧
    (([1, 0, 0] : List ℝ) = [] → butterFilter [1, 0, 0] 1000 44100 FilterType.high 4 = []) ∧
    (0 < ([1, 0, 0] : List ℝ).length →
      (butterGains 1000 44100 4 FilterType.high ([1, 0, 0] : List ℝ).length).getD 0 1 = 0) :=
  filter_length_empty_dc [1, 0, 0] 1000 44100 FilterType.high 4

lemma peakAbs_nonneg (xs : List ℝ) : 0 ≤ peakAbs xs := by
  induction xs with
  | nil => exact le_refl 0
  | cons x t ih => exact le_trans ih (le_max_right _ _)

lemma peakAbs_map_div (xs : List ℝ) (m : ℝ) (hm : 0 < m) :
    peakAbs (xs.map (fun x => x / m)) = peakAbs xs / m := by
  induction xs with
  | nil => simp [peakAbs]
  | cons x t ih =>
      simp only [List.map_cons, peakAbs, List.foldr_cons] at ih ⊢
      rw [ih, abs_div, abs_of_pos hm, max_div_div_right hm.le]

lemma normalize_length (sig : List ℝ) : (normalize sig).length = sig.length := by
  unfold normalize
  split
  · simp
  · rfl

lemma normalize_peak (sig : List ℝ) (h : 0 < peakAbs sig) :
    peakAbs (normalize sig) = 1 := by
  unfold normalize
  rw [if_pos h, peakAbs_map_div _ _ h, div_self h.ne']

lemma normalize_silent (sig : List ℝ) (h : peakAbs sig = 0) :
    normalize sig = sig := by
  unfold normalize
  rw [if_neg]
  rw [h]
  exact lt_irrefl 0

lemma kickRaw_length (d : ℚ) (noise : List ℝ) :
    (kickRaw d noise).length = pyInt ((SAMPLE_RATE : ℚ) * d) := by
  simp [kickRaw]

lemma snareRaw_length (d : ℚ) (noise : List ℝ) :
    (snareRaw d noise).length = pyInt ((SAMPLE_RATE : ℚ) * d) := by
  simp [snareRaw]

lemma hatRaw_length (d : ℚ) (openHat : Bool) (noise : List ℝ) :
    (hatRaw d openHat noise).length = pyInt ((SAMPLE_RATE : ℚ) * d) := by
  simp [hatRaw]

lemma clapRaw_length (d : ℚ) (noise : List ℝ) :
    (clapRaw d noise).length = pyInt ((SAMPLE_RATE : ℚ) * d) := by
  simp [clapRaw]

/-- C8: every synthesizer returns a buffer of length duration·sampleRate
(as truncated by int()); whenever the generated signal is not identically
zero its normalized peak absolute value is exactly 1, and an all-zero
generated signal is returned unchanged — the division never happens, so no
division by zero and (in the real-number model) no ill-defined value occurs. -/
theorem synths_length_and_peak (dk ds dh dc : ℚ) (openHat : Bool)
    (nk ns nh nc : List ℝ) :
    ((synthKick dk nk).length = pyInt ((SAMPLE_RATE : ℚ) * dk) ∧
      (0 < peakAbs (kickRaw dk nk) → peakAbs (synthKick dk nk) = 1) ∧
      (peakAbs (kickRaw dk nk) = 0 → synthKick dk nk = kickRaw dk nk)) ∧
    ((synthSnare ds ns).length = pyInt ((SAMPLE_RATE : ℚ) * ds) ∧
      (0 < peakAbs (snareRaw ds ns) → peakAbs (synthSnare ds ns) = 1) ∧
      (peakAbs (snareRaw ds ns) = 0 → synthSnare ds ns = snareRaw ds ns)) ∧
    ((synthHat dh openHat nh).length = pyInt ((SAMPLE_RATE : ℚ) * dh) ∧
      (0 < peakAbs (hatRaw dh openHat nh) → peakAbs (synthHat dh openHat nh) = 1) ∧
      (peakAbs (hatRaw dh openHat nh) = 0 → synthHat dh openHat nh = hatRaw dh openHat nh)) ∧
    ((synthClap dc nc).length = pyInt ((SAMPLE_RATE : ℚ) * dc) ∧
      (0 < peakAbs (clapRaw dc nc) → peakAbs (synthClap dc nc) = 1) ∧
      (peakAbs (clapRaw dc nc) = 0 → synthClap dc nc = clapRaw dc nc)) := by
  refine ⟨⟨?_, fun h => normalize_peak _ h, fun h => normalize_silent _ h⟩,
          ⟨?_, fun h => normalize_peak _ h, fun h => normalize_silent _ h⟩,
          ⟨?_, fun h => normalize_peak _ h, fun h => normalize_silent _ h⟩,
          ⟨?_, fun h => normalize_peak _ h, fun h => normalize_silent _ h⟩⟩
  · rw [synthKick, normalize_length, kickRaw_length]
  · rw [synthSnare, normalize_length, snareRaw_length]
  · rw [synthHat, normalize_length, hatRaw_length]
  · rw [synthClap, normalize_length, clapRaw_length]

/-- Witness for C8 at the source's default durations with silent noise. -/
theorem synths_length_and_peak_witness :
    (synthKick (1 / 2) []).length = pyInt ((SAMPLE_RATE : ℚ) * (1 / 2)) ∧
    (synthSnare (1 / 4) []).length = pyInt ((SAMPLE_RATE : ℚ) * (1 / 4)) :=
  ⟨(synths_length_and_peak (1 / 2) (1 / 4) (2 / 25) (2 / 5) false [] [] [] []).1.1,
   (synths_length_and_peak (1 / 2) (1 / 4) (2 / 25) (2 / 5) false [] [] [] []).2.1.1⟩

lemma getD_range_map {α : Type} (f : ℕ → α) (n j : ℕ) (d : α) (h : j < n) :
    ((List.range n).map f).getD j d = f j := by
  rw [List.getD_eq_getElem?_getD, List.getElem?_map, List.getElem?_range h]
  rfl

lemma addBuf_length (out : List (ℝ × ℝ)) (ch : Channel) (t T : ℕ) :
    (addBuf out ch t T).length = out.length := by
  unfold addBuf
  split
  · rw [List.length_map, List.length_range]
  · rfl

lemma addBuf_skip (out : List (ℝ × ℝ)) (ch : Channel) (t T : ℕ)
    (h : ¬ t + ch.data.length < T) : addBuf out ch t T = out := by
  unfold addBuf
  rw [if_neg h]

lemma addBuf_getD_pass (out : List (ℝ × ℝ)) (ch : Channel) (t T j : ℕ)
    (hj : j < out.length) (hout : ¬ (t ≤ j ∧ j < t + ch.data.length)) :
    (addBuf out ch t T).getD j (0, 0) = out.getD j (0, 0) := by
  unfold addBuf
  split
  · rw [getD_range_map _ _ _ _ hj, if_neg hout]
  · rfl

lemma spsQ_661500 : spsQ 661500 = 1 := by
  norm_num [spsQ, SAMPLE_RATE]

lemma spsInt_661500 : spsInt 661500 = 1 := by
  unfold spsInt
  rw [spsQ_661500]
  apply pyInt_of_bounds <;> norm_num

lemma totalLen_661500 : totalLen 661500 = 64 := by
  unfold totalLen
  rw [spsInt_661500]

set_option maxRecDepth 4000 in
lemma exportRaw_tail : exportRaw [chTail] 661500 =
    addBuf (addBuf (addBuf (List.replicate 64 (0, 0)) chTail 15 64) chTail 31 64)
      chTail 47 64 := by
  have hskip : ¬ 63 + chTail.data.length < 64 := by
    simp [chTail]
  unfold exportRaw
  simp only [spsInt_661500, totalLen_661500]
  simp +decide [List.range_succ]
  rw [addBuf_skip _ _ _ _ hskip]

lemma getD_map_div_pair (l : List (ℝ × ℝ)) (m : ℝ) (j : ℕ) (h : j < l.length) :
    (l.map (fun p => (p.1 / m, p.2 / m))).getD j (0, 0) =
      ((l.getD j (0, 0)).1 / m, (l.getD j (0, 0)).2 / m) := by
  rw [List.getD_eq_getElem?_getD, List.getElem?_map]
  rw [List.getElem?_eq_getElem h]
  rw [List.getD_eq_getElem?_getD, List.getElem?_eq_getElem h]
  rfl

lemma exportRaw_tail_getD :
    (exportRaw [chTail] 661500).getD 63 (0, 0) = (0, 0) := by
  rw [exportRaw_tail]
  have hb : (List.replicate 64 ((0 : ℝ), (0 : ℝ))).length = 64 := by
    simp
  have h1 : (addBuf (List.replicate 64 (0, 0)) chTail 15 64).length = 64 := by
    rw [addBuf_length, hb]
  have h2 : (addBuf (addBuf (List.replicate 64 (0, 0)) chTail 15 64) chTail 31 64).length
      = 64 := by
    rw [addBuf_length, h1]
  have hdat : chTail.data.length = 1 := rfl
  rw [addBuf_getD_pass _ _ _ _ _ (by rw [h2]; norm_num) (by rw [hdat]; omega)]
  rw [addBuf_getD_pass _ _ _ _ _ (by rw [h1]; norm_num) (by rw [hdat]; omega)]
  rw [addBuf_getD_pass _ _ _ _ _ (by rw [hb]; norm_num) (by rw [hdat]; omega)]
  simp

lemma exportRaw_tail_length : (exportRaw [chTail] 661500).length = 64 := by
  rw [exportRaw_tail, addBuf_length, addBuf_length, addBuf_length]
  simp

/-- C5 counterexample: with a one-sample buffer active only on step 15 and
sps = 1 (tempo 661500), the placement for the last bar sits at offset
63 = (3·16+15)·sps < totalLen = 64, its contribution is full-scale 1 — yet
the exported buffer is 0 there, because the exporter skips any step whose
buffer does not fit strictly inside the total length. -/
theorem export_drops_tail_step :
    (exportBuffer [chTail] 661500).getD 63 (0, 0) = (0, 0) ∧
    chTail.steps.getD 15 false = true ∧
    (3 * 16 + 15) * spsInt 661500 = 63 ∧
    63 < totalLen 661500 ∧
    chTail.data.getD 0 0 * chTail.vol * lGain chTail.pan = 1 := by
  refine ⟨?_, rfl, by rw [spsInt_661500], by rw [totalLen_661500]; norm_num, ?_⟩
  · unfold exportBuffer
    split
    · rw [getD_map_div_pair _ _ _ (by rw [exportRaw_tail_length]; norm_num),
        exportRaw_tail_getD]
      simp
    · exact exportRaw_tail_getD
  · simp [chTail, lGain, Real.cos_zero]

lemma foldl_step_length {β : Type} (step : List (ℝ × ℝ) → β → List (ℝ × ℝ))
    (hs : ∀ o a, (step o a).length = o.length) :
    ∀ (l : List β) (init : List (ℝ × ℝ)), (l.foldl step init).length = init.length := by
  intro l
  induction l with
  | nil => intro init; rfl
  | cons a t ih =>
      intro init
      rw [List.foldl_cons, ih, hs]

lemma exportRaw_length (cs : List Channel) (bpm : ℚ) :
    (exportRaw cs bpm).length = totalLen bpm := by
  have hstep : ∀ (bar s : ℕ) (o : List (ℝ × ℝ)),
      (cs.foldl (fun acc3 ch => if ch.steps.getD s false then
        addBuf acc3 ch ((bar * 16 + s) * spsInt bpm) (totalLen bpm) else acc3) o).length
        = o.length := by
    intro bar s o
    apply foldl_step_length
    intro o' ch
    split
    · exact addBuf_length o' ch _ _
    · rfl
  unfold exportRaw
  rw [foldl_step_length _ ?_ _ _, List.length_replicate]
  intro o bar
  rw [foldl_step_length _ ?_ _ _]
  intro o' s
  exact hstep bar s o'

lemma peakPairs_map_div (xs : List (ℝ × ℝ)) (m : ℝ) (hm : 0 < m) :
    peakPairs (xs.map (fun p => (p.1 / m, p.2 / m))) = peakPairs xs / m := by
  induction xs with
  | nil => simp [peakPairs]
  | cons p t ih =>
      simp only [List.map_cons, peakPairs, List.foldr_cons] at ih ⊢
      rw [ih, abs_div, abs_div, abs_of_pos hm, max_div_div_right hm.le,
        max_div_div_right hm.le]

/-- C5 (amended): the exported stereo buffer has length R·16·samplesPerStep
with R fixed at 4; a placement whose buffer does not fit strictly inside the
total length is skipped outright (the buffer is left untouched there); and
the final normalization makes the peak absolute sample exactly 1 whenever
the raw mix is not silent, leaving a silent mix unchanged. -/
theorem export_length_skip_normalize (cs : List Channel) (bpm : ℚ) :
    (exportBuffer cs bpm).length = spsInt bpm * 16 * 4 ∧
    (∀ out ch t, ¬ t + ch.data.length < totalLen bpm →
      addBuf out ch t (totalLen bpm) = out) ∧
    (0 < peakPairs (exportRaw cs bpm) → peakPairs (exportBuffer cs bpm) = 1) ∧
    (peakPairs (exportRaw cs bpm) = 0 → exportBuffer cs bpm = exportRaw cs bpm) := by
  refine ⟨?_, fun out ch t h => addBuf_skip out ch t _ h, ?_, ?_⟩
  · unfold exportBuffer
    split
    · rw [List.length_map, exportRaw_length]
      rfl
    · rw [exportRaw_length]
      rfl
  · intro h
    unfold exportBuffer
    rw [if_pos h, peakPairs_map_div _ _ h, div_self h.ne']
  · intro h
    unfold exportBuffer
    rw [if_neg]
    rw [h]
    exact lt_irrefl 0

/-- Witness for C5's amended statement on the empty kit at 140 BPM. -/
theorem export_length_skip_normalize_witness :
    (exportBuffer [] 140).length = spsInt 140 * 16 * 4 :=
  (export_length_skip_normalize [] 140).1

lemma triggerPhase_not_playing (σ : EngineState) (f : ℕ) (h : σ.playing = false) :
    triggerPhase σ f = σ := by
  simp [triggerPhase, h]

lemma mem_newVoices (cs : List Channel) (bpm : ℚ) (start frames : ℕ) (v : Voice)
    (hv : v ∈ newVoices cs bpm start frames) :
    ∃ ch, ch ∈ cs ∧ v = Voice.ofChannel ch := by
  unfold newVoices voicesForStep at hv
  rw [List.mem_flatMap] at hv
  obtain ⟨s, _, hvs⟩ := hv
  rw [List.mem_map] at hvs
  obtain ⟨ch, hch, rfl⟩ := hvs
  rw [List.mem_filter] at hch
  exact ⟨ch, hch.1, rfl⟩

/-- C10: a Voice copies its channel's gain and pan at trigger time (only the
buffer is shared), and the rendering of the already-active voices does not
read the channel table at all: with no trigger due, replacing the whole
channel table (any gain/pan/step mutation) changes neither the emitted block
nor the surviving voices. -/
theorem voice_gain_capture (σ : EngineState) (cs' : List Channel) (f : ℕ)
    (h : σ.playing = false) :
    (callback { σ with channels := cs' } f).2 = (callback σ f).2 ∧
    (callback { σ with channels := cs' } f).1.voices = (callback σ f).1.voices ∧
    (∀ (cs : List Channel) (bpm : ℚ) (start frames : ℕ),
      ∀ v ∈ newVoices cs bpm start frames,
        ∃ ch, ch ∈ cs ∧ v.data = ch.data ∧ v.vol = ch.vol ∧ v.pan = ch.pan ∧ v.pos = 0) := by
  have h' : ({ σ with channels := cs' } : EngineState).playing = false := h
  refine ⟨?_, ?_, ?_⟩
  · simp [callback, triggerPhase_not_playing _ f h, triggerPhase_not_playing _ f h']
  · simp [callback, triggerPhase_not_playing _ f h, triggerPhase_not_playing _ f h']
  · intro cs bpm start frames v hv
    obtain ⟨ch, hch, rfl⟩ := mem_newVoices cs bpm start frames v hv
    exact ⟨ch, hch, rfl, rfl, rfl, rfl⟩

/-- Witness for C10: replacing the stopped initial state's channel table
leaves the rendered block unchanged. -/
theorem voice_gain_capture_witness :
    (callback { initState with channels := [chCap] } 1).2 = (callback initState 1).2 :=
  (voice_gain_capture initState [chCap] 1 rfl).1

lemma peakAbs_le_one (xs : List ℝ) (h : ∀ x ∈ xs, |x| ≤ 1) : peakAbs xs ≤ 1 := by
  induction xs with
  | nil => exact zero_le_one
  | cons x t ih =>
      exact max_le (h x (List.mem_cons_self x t))
        (ih (fun y hy => h y (List.mem_cons_of_mem x hy)))

lemma chunkPeak_le_one (v : Voice) (f : ℕ) (hd : ∀ x ∈ v.data, |x| ≤ 1)
    (h0 : 0 ≤ v.vol) (h1 : v.vol ≤ 1) : chunkPeak v f ≤ 1 := by
  apply peakAbs_le_one
  intro y hy
  unfold voiceChunk at hy
  rw [List.mem_map] at hy
  obtain ⟨x, hx, rfl⟩ := hy
  have hxd : x ∈ v.data := List.drop_subset _ _ (List.take_subset _ _ hx)
  calc |x * v.vol| = |x| * |v.vol| := abs_mul x v.vol
    _ ≤ 1 * 1 := mul_le_mul (hd x hxd) (by rwa [abs_of_nonneg h0]) (abs_nonneg _) zero_le_one
    _ = 1 := one_mul 1

lemma foldr_max_le {α : Type} (l : List α) (g : α → ℝ) (h : ∀ a ∈ l, g a ≤ 1) :
    l.foldr (fun a m => max (g a) m) 0 ≤ 1 := by
  induction l with
  | nil => exact zero_le_one
  | cons a t ih =>
      exact max_le (h a (List.mem_cons_self a t))
        (ih (fun b hb => h b (List.mem_cons_of_mem a hb)))

lemma foldr_max_nonneg {α : Type} (l : List α) (g : α → ℝ) :
    0 ≤ l.foldr (fun a m => max (g a) m) 0 := by
  induction l with
  | nil => exact le_refl 0
  | cons a t ih => exact le_trans ih (le_max_right _ _)

lemma chanEnergy_le_one (cs : List Channel) (vs : List Voice) (f i : ℕ)
    (hv : ∀ v ∈ vs, (∀ x ∈ v.data, |x| ≤ 1) ∧ 0 ≤ v.vol ∧ v.vol ≤ 1) :
    chanEnergy cs vs f i ≤ 1 := by
  apply foldr_max_le
  intro v hvm
  have hv1 : v ∈ renderedVoices vs := List.mem_of_mem_filter hvm
  have hv2 : v ∈ vs := List.mem_of_mem_filter hv1
  exact chunkPeak_le_one v f (hv v hv2).1 (hv v hv2).2.1 (hv v hv2).2.2

lemma chanEnergy_nonneg (cs : List Channel) (vs : List Voice) (f i : ℕ) :
    0 ≤ chanEnergy cs vs f i :=
  foldr_max_nonneg _ _

lemma triggerPhase_meterLevels (σ : EngineState) (f : ℕ) :
    (triggerPhase σ f).meterLevels = σ.meterLevels := by
  unfold triggerPhase
  split <;> rfl

lemma triggerPhase_voices_bounded (σ : EngineState) (f : ℕ)
    (hch : ∀ ch ∈ σ.channels, (∀ x ∈ ch.data, |x| ≤ 1) ∧ 0 ≤ ch.vol ∧ ch.vol ≤ 1)
    (hv : ∀ v ∈ σ.voices, (∀ x ∈ v.data, |x| ≤ 1) ∧ 0 ≤ v.vol ∧ v.vol ≤ 1) :
    ∀ v ∈ (triggerPhase σ f).voices,
      (∀ x ∈ v.data, |x| ≤ 1) ∧ 0 ≤ v.vol ∧ v.vol ≤ 1 := by
  unfold triggerPhase
  split
  · intro v hvm
    simp only [List.mem_append] at hvm
    rcases hvm with hvm | hvm
    · exact hv v hvm
    · obtain ⟨ch, hchm, rfl⟩ := mem_newVoices _ _ _ _ v hvm
      exact ⟨(hch ch hchm).1, (hch ch hchm).2.1, (hch ch hchm).2.2⟩
  · exact hv

lemma newMeters_getD (cs : List Channel) (vs : List Voice) (old : List ℝ)
    (f i : ℕ) (hi : i < old.length) :
    (newMeters cs vs old f).getD i 0 =
      max (blockEnergy cs vs f old.length i) (old.getD i 0 * 0.9) := by
  unfold newMeters
  exact getD_range_map _ _ _ _ hi

lemma getD_mem_of_lt {l : List ℝ} {i : ℕ} (hi : i < l.length) (d : ℝ) :
    l.getD i d ∈ l := by
  rw [List.getD_eq_getElem l d hi]
  exact List.getElem_mem hi

/-- C4 (amended): every meter slot follows the rise-instantly / decay-0.9
law newLevel = max(blockEnergy, 0.9·previous), and every per-channel slot
(every slot except the master's last one) stays inside [0, 1] whenever the
voices' buffers are normalized, gains lie in [0, 1] and the previous levels
lie in [0, 1].  The master slot is the pre-clip block peak and is not
bounded by 1 (see the counterexample). -/
theorem meter_law_and_channel_bound (σ : EngineState) (f : ℕ)
    (hch : ∀ ch ∈ σ.channels, (∀ x ∈ ch.data, |x| ≤ 1) ∧ 0 ≤ ch.vol ∧ ch.vol ≤ 1)
    (hv : ∀ v ∈ σ.voices, (∀ x ∈ v.data, |x| ≤ 1) ∧ 0 ≤ v.vol ∧ v.vol ≤ 1)
    (hm : ∀ m ∈ σ.meterLevels, 0 ≤ m ∧ m ≤ 1) :
    (∀ i, i < σ.meterLevels.length →
      ((callback σ f).1.meterLevels).getD i 0 =
        max (blockEnergy (triggerPhase σ f).channels (triggerPhase σ f).voices f
          σ.meterLevels.length i) (σ.meterLevels.getD i 0 * 0.9)) ∧
    (∀ i, i + 1 < σ.meterLevels.length →
      0 ≤ ((callback σ f).1.meterLevels).getD i 0 ∧
        ((callback σ f).1.meterLevels).getD i 0 ≤ 1) := by
  have hcb : (callback σ f).1.meterLevels =
      newMeters (triggerPhase σ f).channels (triggerPhase σ f).voices
        σ.meterLevels f := by
    simp [callback, triggerPhase_meterLevels]
  have hlaw : ∀ i, i < σ.meterLevels.length →
      ((callback σ f).1.meterLevels).getD i 0 =
        max (blockEnergy (triggerPhase σ f).channels (triggerPhase σ f).voices f
          σ.meterLevels.length i) (σ.meterLevels.getD i 0 * 0.9) := by
    intro i hi
    rw [hcb, newMeters_getD _ _ _ _ _ hi]
  refine ⟨hlaw, ?_⟩
  intro i hi
  have hii : i < σ.meterLevels.length := by omega
  rw [hlaw i hii]
  have hvb := triggerPhase_voices_bounded σ f hch hv
  have hbe : blockEnergy (triggerPhase σ f).channels (triggerPhase σ f).voices f
      σ.meterLevels.length i =
      chanEnergy (triggerPhase σ f).channels (triggerPhase σ f).voices f i := by
    unfold blockEnergy
    rw [if_neg (by omega)]
  have hold := hm _ (getD_mem_of_lt hii 0)
  constructor
  · exact le_max_of_le_left (by rw [hbe]; exact chanEnergy_nonneg _ _ _ _)
  · apply max_le
    · rw [hbe]
      exact chanEnergy_le_one _ _ _ _ hvb
    · nlinarith [hold.1, hold.2]

/-- Witness for C4's amended statement at the stopped initial state. -/
theorem meter_law_and_channel_bound_witness :
    0 ≤ ((callback initState 1).1.meterLevels).getD 0 0 ∧
    ((callback initState 1).1.meterLevels).getD 0 0 ≤ 1 :=
  (meter_law_and_channel_bound initState 1
    (by simp [initState])
    (by simp [initState])
    (fun m hmm => by
      rw [List.eq_of_mem_replicate (show m ∈ List.replicate 10 (0 : ℝ) from hmm)]
      exact ⟨le_refl 0, zero_le_one⟩)).2 0 (by simp [initState])

end Catfl4k
